import Mathlib

/-!
Verification of the usc-signal-bot booking allocator and its surrounding
command plumbing.  The definitions below are a shallow embedding of the
Python sources:

* `usc_signal_bot/commands.py` — `resolve_alias`, `_allocate_bookings`,
  `_parse_args`, `_make_booking`, and the per-group gathering in
  `BookTimeslotCommand.handle`;
* `usc_signal_bot/usc.py` — `create_booking_data` and the data classes;
* `usc_signal_bot/config.py` — `BookingMember`.

Python machine integers are arbitrary precision, so they are embedded as
`Int` (or `Nat` where the source value is a length or a count).  Fallible
Python code is embedded with `Except`: the two named `RuntimeError`
validation failures of `_allocate_bookings` become dedicated error
constructors, and the unguarded `IndexError` / `ValueError` /
`ZeroDivisionError` crash paths of its grouping loop become a `pyCrash`
error carrying the Python exception kind.
-/

namespace UscBot

/-- Embeds `config.py` `BookingMember`: credentials for a single USC member. -/
structure BookingMember where
  username : String
  password : String
deriving Repr, DecidableEq

/-- Result alternatives of `_allocate_bookings` (commands.py lines 302-357).
`insufficientCourts` and `insufficientLeaders` are the two `RuntimeError`s
raised by the validation checks; `pyCrash` records an unguarded Python
exception escaping the grouping loop (the kind string names the Python
exception class). -/
inductive AllocError where
  | insufficientCourts (msg : String)
  | insufficientLeaders (msg : String)
  | pyCrash (kind : String)
deriving Repr, DecidableEq

/-- An allocation: ordered list of (booking member, co-participants). -/
abbrev Allocation := List (BookingMember × List String)

/-- Embeds `resolve_alias` (commands.py lines 22-38).  The Python code
lowercases the alias keys into a fresh dict (later keys overwrite earlier
ones on a lowercase collision, hence the reversed `find?`) and looks the
lowercased token up, defaulting to the token itself. -/
def resolve_alias (email_or_alias : String) (aliases : List (String × String)) : String :=
  let lower := email_or_alias.toLower
  match aliases.reverse.find? (fun kv => kv.1.toLower == lower) with
  | some kv => kv.2
  | none => email_or_alias

/-- Embeds `authenticated_players` (commands.py line 319): the configured
booking members whose username occurs in the requested player list,
in configuration order. -/
def authenticated_players (bms : List BookingMember) (players : List String) :
    List BookingMember :=
  bms.filter (fun m => players.contains m.username)

/-- Embeds `amount_of_bookings_required = math.ceil(amount_of_players / 4)`
(commands.py line 322); the float ceiling of `n / 4` is the `Nat` ceiling
division for the list lengths at hand. -/
def amount_of_bookings_required (n : Nat) : Nat := (n + 3) / 4

/-- Embeds `players_per_court = math.ceil(amount_of_players / courts)`
(commands.py line 341), defined for `c > 0`. -/
def players_per_court (n c : Nat) : Nat := (n + c - 1) / c

/-- Embeds the message of the `RuntimeError` at commands.py lines 328-330. -/
def courtsErrorMsg (courts : Int) (required n : Nat) : String :=
  s!"Requested {courts} courts, but at least {required} are needed for {n} players"

/-- Embeds the message of the `RuntimeError` at commands.py lines 337-339. -/
def leadersErrorMsg (toMake : Nat) : String :=
  s!"Not enough authenticated booking members available to book {toMake} squash courts"

/-- Embeds `players_to_book` (commands.py line 334): the usernames of the
first `amount_of_bookings_to_make` authenticated players. -/
def players_to_book (bms : List BookingMember) (players : List String) (courts : Int) :
    List String :=
  ((authenticated_players bms players).map (fun m => m.username)).take
    (max (amount_of_bookings_required players.length) courts.toNat)

/-- Embeds the inner `while` loop of `_allocate_bookings` (commands.py lines
346-354).  The Python loop keeps an index `j` into the mutable
`remaining_players`; elements skipped because they are designated leaders
(members of `players_to_book`) form the prefix before `j`.  Here `pre` is
that skipped prefix (reversed), `rest` is the part of the pool from `j` on,
and `grp` is `current_group` (reversed).  The loop exits when the pool is
empty or the group has `cap = players_per_court - 1` members; if the pool
still holds only skipped leaders while the group is not full, the Python
indexing `remaining_players[j]` raises `IndexError`. -/
def fillGroup (ptb : List String) (cap : Nat) :
    List String → List String → List String → Except String (List String × List String)
  | pre, [], grp =>
    if pre.isEmpty then .ok (grp.reverse, pre.reverse)
    else if cap ≤ grp.length then .ok (grp.reverse, pre.reverse)
    else .error "IndexError"
  | pre, p :: rest, grp =>
    if cap ≤ grp.length then .ok (grp.reverse, pre.reverse ++ p :: rest)
    else if ptb.contains p then fillGroup ptb cap (p :: pre) rest grp
    else fillGroup ptb cap pre rest (p :: grp)

/-- Embeds the outer `for i in range(amount_of_bookings_to_make)` loop of
`_allocate_bookings` (commands.py lines 342-355): for each designated
leader, remove the first occurrence of its username from the remaining
pool (`list.remove`, `ValueError` if absent) and fill its group. -/
def allocLoop (ptb : List String) (cap : Nat) :
    List BookingMember → List String → Allocation → Except String Allocation
  | [], _remaining, acc => .ok acc.reverse
  | m :: ms, remaining, acc =>
    if remaining.contains m.username then
      match fillGroup ptb cap [] (remaining.erase m.username) [] with
      | .error e => .error e
      | .ok (grp, remaining') => allocLoop ptb cap ms remaining' ((m, grp) :: acc)
    else .error "ValueError"

/-- Embeds `_allocate_bookings` (commands.py lines 302-357).  `bms` is
`self.usc_creds.bookingMembers`, `players` the resolved member emails,
`courts` the requested court count (a Python `int`, hence `Int`).  The
check order follows the source: court floor first, then leader
sufficiency, then the `players_per_court` division (which in Python
raises `ZeroDivisionError` when `courts == 0`, reachable only for zero
players), then the grouping loop. -/
def allocate_bookings (bms : List BookingMember) (players : List String) (courts : Int) :
    Except AllocError Allocation :=
  if courts < (amount_of_bookings_required players.length : Int) then
    .error (.insufficientCourts
      (courtsErrorMsg courts (amount_of_bookings_required players.length) players.length))
  else if (authenticated_players bms players).length <
      max (amount_of_bookings_required players.length) courts.toNat then
    .error (.insufficientLeaders
      (leadersErrorMsg (max (amount_of_bookings_required players.length) courts.toNat)))
  else if courts = 0 then
    .error (.pyCrash "ZeroDivisionError")
  else
    match allocLoop (players_to_book bms players courts)
        (players_per_court players.length courts.toNat - 1)
        ((authenticated_players bms players).take
          (max (amount_of_bookings_required players.length) courts.toNat))
        players [] with
    | .error kind => .error (.pyCrash kind)
    | .ok allocs => .ok allocs

/-! ## Booking payload construction (`usc.py`)

Datetimes carry no algorithmic content here; they are embedded as opaque
already-formatted strings, so `format_slot_date` (a `strftime` call) is the
identity on this representation. -/

/-- Embeds `BookableSlot` (usc.py lines 37-44). -/
structure BookableSlot where
  startDate : String
  endDate : String
  isAvailable : Bool
  linkedProductId : Int
  bookableProductId : Int
deriving Repr, DecidableEq

/-- Embeds `BookingParams` (usc.py lines 57-69), without the serializer. -/
structure BookingParams where
  bookableLinkedProductId : Int
  bookableProductId : Int
  clickedOnBook : Bool
  startDate : String
  endDate : String
  invitedGuests : List String
  invitedMemberEmails : List String
  invitedOthers : List String
deriving Repr, DecidableEq

/-- Embeds `BookingData` (usc.py lines 76-84); the optional fields the code
never sets are omitted. -/
structure BookingData where
  memberId : Int
  params : BookingParams
deriving Repr, DecidableEq

/-- Embeds `format_slot_date` (usc.py lines 374-383) on the opaque string
representation of datetimes. -/
def format_slot_date (date : String) : String := date

/-- Embeds `USCClient.create_booking_data` (usc.py lines 236-264): the
`assert len(members) <= 2` raises `AssertionError` with the given message
for longer invite lists; otherwise the booking payload embeds the slot
product ids and start/end dates. -/
def create_booking_data (member_id : Int) (members : List String) (slot : BookableSlot) :
    Except String BookingData :=
  if members.length ≤ 2 then
    .ok { memberId := member_id,
          params := { bookableLinkedProductId := slot.linkedProductId,
                      bookableProductId := slot.bookableProductId,
                      clickedOnBook := true,
                      startDate := slot.startDate,
                      endDate := slot.endDate,
                      invitedGuests := [],
                      invitedMemberEmails := members,
                      invitedOthers := [] } }
  else
    .error "Only 2 members can be invited to a slot"

/-! ## Per-group booking (`_make_booking`, commands.py lines 256-300)

The external USC calls are oracles: each call either returns a value or
raises an exception carrying a message (`Except String`).  `close` in the
`finally` block performs no fallible work in this model. -/

/-- Outcomes of the external USC API calls made by one group's booking. -/
structure USCOutcomes where
  authenticate : Except String Unit
  getMember : Except String Int
  getMatchingSlot : Except String (Option BookableSlot)
  bookSlot : Except String Unit
deriving Repr

/-- Embeds the `RuntimeError` message at commands.py line 288. -/
def noSlotMsg (date : String) : String := s!"No available slot found on {date}"

/-- Embeds the dry-run message at commands.py line 293. -/
def dryRunMsg (slot : BookableSlot) (bm : BookingMember) (members : List String) : String :=
  let startD := format_slot_date slot.startDate
  let endD := format_slot_date slot.endDate
  let user := bm.username
  let mems := String.intercalate ", " members
  s!"[DRY RUN] Would book slot {startD} - {endD} with {user} for members {mems}"

/-- Embeds the success message at commands.py line 296. -/
def successMsg (bm : BookingMember) (members : List String) : String :=
  let user := bm.username
  let mems := String.intercalate ", " members
  s!"Booking successful with {user} for members {mems}"

/-- Embeds the failure message at commands.py line 298. -/
def failureMsg (dryRun : Bool) (bm : BookingMember) (e : String) : String :=
  let pre := if dryRun then "[DRY RUN] " else ""
  let user := bm.username
  s!"{pre}Booking failed with {user}: {e}"

/-- Embeds the slot choice inside `_make_booking` (commands.py lines
283-288): use the pre-assigned slot when given, otherwise ask
`get_matching_slot` and raise the no-slot `RuntimeError` when it yields
nothing. -/
def resolveSlot (date : String) (preAssignedSlot : Option BookableSlot)
    (usc : USCOutcomes) : Except String BookableSlot :=
  match preAssignedSlot with
  | some s => .ok s
  | none =>
    match usc.getMatchingSlot with
    | .error e => .error e
    | .ok (some s) => .ok s
    | .ok none => .error (noSlotMsg date)

/-- Embeds the `try` body of `_make_booking` (commands.py lines 277-296):
authenticate, fetch the member record, resolve the slot, build the payload
(where the invite-count assertion can fire), then either report the
dry run or submit the booking. -/
def makeBookingTry (date : String) (members : List String) (bm : BookingMember)
    (dryRun : Bool) (preAssignedSlot : Option BookableSlot) (usc : USCOutcomes) :
    Except String String :=
  match usc.authenticate with
  | .error e => .error e
  | .ok _ =>
    match usc.getMember with
    | .error e => .error e
    | .ok memberId =>
      match resolveSlot date preAssignedSlot usc with
      | .error e => .error e
      | .ok slot =>
        match create_booking_data memberId members slot with
        | .error e => .error e
        | .ok _bookingData =>
          if dryRun then .ok (dryRunMsg slot bm members)
          else
            match usc.bookSlot with
            | .error e => .error e
            | .ok _ => .ok (successMsg bm members)

/-- Embeds `_make_booking` (commands.py lines 256-300): the `try` body
wrapped in the catch-all `except Exception` that turns any raised
exception into the per-group failure message. -/
def make_booking (date : String) (members : List String) (bm : BookingMember)
    (dryRun : Bool) (preAssignedSlot : Option BookableSlot) (usc : USCOutcomes) : String :=
  match makeBookingTry date members bm dryRun preAssignedSlot usc with
  | .ok msg => msg
  | .error e => failureMsg dryRun bm e

/-- Embeds the per-group fan-out of `BookTimeslotCommand.handle`
(commands.py lines 417-432): each allocation group is paired with its
pre-assigned slot and its own external-call outcomes, and
`asyncio.gather` collects the textual results in group order. -/
def runBookings (date : String) (dryRun : Bool)
    (groups : List (BookingMember × List String × BookableSlot))
    (oracles : List USCOutcomes) : List String :=
  (groups.zip oracles).map
    (fun gu => make_booking date gu.1.2.1 gu.1.1 dryRun (some gu.1.2.2) gu.2)

/-! ## Command argument parsing (`_parse_args`, commands.py lines 359-378)

`shlex.split` (POSIX mode, whitespace splitting) is embedded as a fueled
scanner over the character list; `none` is the `ValueError` the Python
lexer raises on an unbalanced quote or trailing escape (the fuel, one unit
per consumed character plus one, never runs out on terminating inputs). -/

/-- The single-quote character, written by code point. -/
def squote : Char := Char.ofNat 39

/-- Scans a single-quoted section: everything up to the closing quote is
literal; a missing closing quote is a lexer error. -/
def scanSingle : List Char → Option (List Char × List Char)
  | [] => none
  | c :: cs =>
    if c = squote then some ([], cs)
    else
      match scanSingle cs with
      | none => none
      | some (tk, rest) => some (c :: tk, rest)

/-- Scans a double-quoted section: backslash collapses only before a
double quote or another backslash, as in POSIX `shlex`; a missing closing
quote is a lexer error. -/
def scanDouble : List Char → Option (List Char × List Char)
  | [] => none
  | '"' :: cs => some ([], cs)
  | '\\' :: [] => none
  | '\\' :: d :: cs =>
    (scanDouble cs).map
      (fun r => ((if d = '"' ∨ d = '\\' then [d] else ['\\', d]) ++ r.1, r.2))
  | c :: cs => (scanDouble cs).map (fun r => (c :: r.1, r.2))

/-- Fueled main loop of `shlex.split`: `cur` is the token being built
(`none` when between tokens, so adjacent quotes merge and empty quoted
tokens survive), `acc` the reversed output. -/
def shlexAux : Nat → List Char → Option (List Char) → List String → Option (List String)
  | 0, _, _, _ => none
  | _ + 1, [], cur, acc =>
    match cur with
    | none => some acc.reverse
    | some t => some ((String.mk t :: acc).reverse)
  | fuel + 1, c :: cs, cur, acc =>
    if c.isWhitespace then
      match cur with
      | none => shlexAux fuel cs none acc
      | some t => shlexAux fuel cs none (String.mk t :: acc)
    else if c = squote then
      match scanSingle cs with
      | none => none
      | some (tk, rest) => shlexAux fuel rest (some (cur.getD [] ++ tk)) acc
    else if c = '"' then
      match scanDouble cs with
      | none => none
      | some (tk, rest) => shlexAux fuel rest (some (cur.getD [] ++ tk)) acc
    else if c = '\\' then
      match cs with
      | [] => none
      | d :: cs2 => shlexAux fuel cs2 (some (cur.getD [] ++ [d])) acc
    else
      shlexAux fuel cs (some (cur.getD [] ++ [c])) acc

/-- Embeds `shlex.split` as used at commands.py line 371. -/
def shlexSplit (s : String) : Option (List String) :=
  shlexAux (s.length + 1) s.toList none []

/-- Embeds Python `str.strip()` for the ASCII whitespace arising here. -/
def pyStrip (s : String) : String :=
  String.mk ((s.toList.dropWhile Char.isWhitespace).reverse.dropWhile Char.isWhitespace).reverse

/-- Embeds `re.sub(r"^book\s+", "", text.strip(), flags=re.IGNORECASE)`
(commands.py line 369): drop a leading case-insensitive `book` together
with the whitespace run after it, when present. -/
def stripBookKeyword (s : String) : String :=
  let t := pyStrip s
  match t.toList with
  | b :: o1 :: o2 :: k :: rest =>
    if b.toLower = 'b' ∧ o1.toLower = 'o' ∧ o2.toLower = 'o' ∧ k.toLower = 'k' then
      match rest with
      | c :: _ =>
        if c.isWhitespace then String.mk (rest.dropWhile Char.isWhitespace) else t
      | [] => t
    else t
  | _ => t

/-- Embeds Python `int(...)` on the strings argparse feeds it: optional
sign followed by decimal digits (surrounding whitespace stripped). -/
def parsePyInt (s : String) : Option Int :=
  let t := (pyStrip s).toList
  let signDigits : Int × List Char :=
    match t with
    | '-' :: rest => (-1, rest)
    | '+' :: rest => (1, rest)
    | l => (1, l)
  match signDigits with
  | (sign, digits) =>
    if digits.isEmpty ∨ ¬ digits.all Char.isDigit then none
    else some (sign * (digits.foldl (fun a c => a * 10 + (c.toNat - 48)) (0 : Nat) : Nat))

/-- Parsed result of the `book` command parser (`Namespace` fields set up
in `_create_parser`, commands.py lines 216-246). -/
structure BookArgs where
  dry_run : Bool
  courts : Int
  date : String
  time : String
  members : List String
deriving Repr, DecidableEq

/-- Models the `ArgumentParser` configured in `_create_parser`
(commands.py lines 216-246) on already-split words: a `--dry-run`
store-true flag, then positionals `courts` (converted by `int`), `date`,
`time` and one-or-more `members`.  Unknown option-like words, a failed
int conversion, and missing or surplus positionals are the argparse
errors (`SystemExit`), which `_parse_args` converts to `RuntimeError`. -/
def parseBookArgs (args : List String) : Except String BookArgs :=
  let dryRun := args.contains "--dry-run"
  let positionals := args.filter (fun a =>
    a ≠ "--dry-run" ∧ ¬ (a.startsWith "--" ∧ a.length > 2))
  if args.any (fun a => a ≠ "--dry-run" ∧ a.startsWith "--" ∧ a.length > 2) then
    .error "unrecognized arguments"
  else
    match positionals with
    | courtsStr :: date :: time :: m :: ms =>
      match parsePyInt courtsStr with
      | none => .error s!"argument courts: invalid int value: {courtsStr}"
      | some courts => .ok ⟨dryRun, courts, date, time, m :: ms⟩
    | _ => .error "the following arguments are required"

/-- Embeds `_parse_args` (commands.py lines 359-378): strip the command
keyword, shell-split, answer `none` (show help) when `--help` or `-h`
occurs anywhere among the words, otherwise run the parser; lexer and
parser failures become the wrapped `RuntimeError`. -/
def parse_args_book (text : String) : Except String (Option BookArgs) :=
  match shlexSplit (stripBookKeyword text) with
  | none => .error "Error parsing arguments: No closing quotation"
  | some args =>
    if args.contains "--help" ∨ args.contains "-h" then .ok none
    else
      match parseBookArgs args with
      | .error e => .error s!"Error parsing arguments: {e}"
      | .ok a => .ok (some a)

/-- The three ways `BookTimeslotCommand.handle` (commands.py lines
382-441) proceeds after parsing: show usage and stop, report a command
error, or continue into validation, allocation and booking. -/
inductive BookOutcome where
  | showHelp
  | commandError (msg : String)
  | proceed (args : BookArgs)
deriving Repr, DecidableEq

/-- Embeds the dispatch at the top of `handle` (commands.py lines
386-390): only a `proceed` outcome reaches member resolution, validation,
allocation and booking. -/
def bookDispatch (text : String) : BookOutcome :=
  match parse_args_book text with
  | .error e => .commandError e
  | .ok none => .showHelp
  | .ok (some a) => .proceed a

/-! ## Lemmas about the grouping loop -/

/-- The fill loop conserves participants: the produced group plus the
remaining pool is, as a multiset, exactly the starting group, skipped
prefix and pool. -/
theorem fillGroup_ms (ptb : List String) (cap : Nat) :
    ∀ (rest pre grp g rem : List String),
      fillGroup ptb cap pre rest grp = .ok (g, rem) →
      (g : Multiset String) + (rem : Multiset String) =
        (grp : Multiset String) + (pre : Multiset String) + (rest : Multiset String) := by
  intro rest
  induction rest with
  | nil =>
    intro pre grp g rem h
    unfold fillGroup at h
    split at h
    · rename_i hpre
      rw [List.isEmpty_iff] at hpre
      subst hpre
      rw [Except.ok.injEq, Prod.mk.injEq] at h
      obtain ⟨h1, h2⟩ := h
      subst h1; subst h2
      simp [Multiset.coe_reverse]
    · split at h
      · rw [Except.ok.injEq, Prod.mk.injEq] at h
        obtain ⟨h1, h2⟩ := h
        subst h1; subst h2
        simp [Multiset.coe_reverse]
      · exact absurd h (by simp)
  | cons p rest ih =>
    intro pre grp g rem h
    unfold fillGroup at h
    split at h
    · rw [Except.ok.injEq, Prod.mk.injEq] at h
      obtain ⟨h1, h2⟩ := h
      subst h1; subst h2
      simp only [← Multiset.coe_add]
      rw [Multiset.coe_reverse, Multiset.coe_reverse]
      abel
    · split at h
      · have := ih (p :: pre) grp g rem h
        rw [this]
        simp only [← Multiset.cons_coe, ← Multiset.singleton_add]
        abel
      · have := ih pre (p :: grp) g rem h
        rw [this]
        simp only [← Multiset.cons_coe, ← Multiset.singleton_add]
        abel

/-- The fill loop never exceeds the group capacity, and when it stops with
a non-empty pool left over, the group is exactly full. -/
theorem fillGroup_len (ptb : List String) (cap : Nat) :
    ∀ (rest pre grp g rem : List String),
      fillGroup ptb cap pre rest grp = .ok (g, rem) → grp.length ≤ cap →
      g.length ≤ cap ∧ (rem ≠ [] → g.length = cap) := by
  intro rest
  induction rest with
  | nil =>
    intro pre grp g rem h hgrp
    unfold fillGroup at h
    split at h
    · rename_i hpre
      rw [List.isEmpty_iff] at hpre
      subst hpre
      rw [Except.ok.injEq, Prod.mk.injEq] at h
      obtain ⟨h1, h2⟩ := h
      subst h1; subst h2
      simp [hgrp]
    · rename_i hfull
      split at h
      · rename_i hcap
        rw [Except.ok.injEq, Prod.mk.injEq] at h
        obtain ⟨h1, h2⟩ := h
        subst h1; subst h2
        simp only [List.length_reverse]
        omega
      · exact absurd h (by simp)
  | cons p rest ih =>
    intro pre grp g rem h hgrp
    unfold fillGroup at h
    split at h
    · rename_i hcap
      rw [Except.ok.injEq, Prod.mk.injEq] at h
      obtain ⟨h1, h2⟩ := h
      subst h1; subst h2
      simp only [List.length_reverse]
      omega
    · rename_i hcap
      split at h
      · exact ih (p :: pre) grp g rem h hgrp
      · exact ih pre (p :: grp) g rem h (by simp; omega)

/-- Invariant of the outer allocation loop: a successful run produces one
group per pending leader, conserves all participants up to a leftover
pool, keeps every group within capacity, and fills every group exactly
when a leftover remains. -/
theorem allocLoop_ok (ptb : List String) (cap : Nat) :
    ∀ (mems : List BookingMember) (remaining : List String) (acc allocs : Allocation),
      allocLoop ptb cap mems remaining acc = .ok allocs →
      ∃ (newPart : Allocation) (leftover : List String),
        allocs = acc.reverse ++ newPart ∧
        newPart.map Prod.fst = mems ∧
        ((newPart.map (fun gr => gr.1.username) : List String) : Multiset String) +
            (((newPart.map Prod.snd).flatten : List String) : Multiset String) +
            (leftover : Multiset String) = (remaining : Multiset String) ∧
        (∀ gr ∈ newPart, gr.2.length ≤ cap) ∧
        (leftover ≠ [] → ∀ gr ∈ newPart, gr.2.length = cap) := by
  intro mems
  induction mems with
  | nil =>
    intro remaining acc allocs h
    unfold allocLoop at h
    rw [Except.ok.injEq] at h
    subst h
    exact ⟨[], remaining, by simp, rfl, by simp, by simp, fun _ => by simp⟩
  | cons m ms ih =>
    intro remaining acc allocs h
    unfold allocLoop at h
    split at h
    · rename_i hmem
      rw [List.elem_iff] at hmem
      split at h
      · exact absurd h (by simp)
      · rename_i grp remaining' hfill
        obtain ⟨np, lf, h1, h2, h3, h4, h5⟩ := ih remaining' ((m, grp) :: acc) allocs h
        have hfm := fillGroup_ms ptb cap (remaining.erase m.username) [] [] grp remaining' hfill
        simp only [Multiset.coe_nil, add_zero, zero_add] at hfm
        have hlen := fillGroup_len ptb cap (remaining.erase m.username) [] [] grp remaining'
          hfill (by simp)
        have hperm : (remaining : Multiset String) =
            m.username ::ₘ (remaining.erase m.username : Multiset String) := by
          rw [Multiset.cons_coe, Multiset.coe_eq_coe]
          exact List.perm_cons_erase hmem
        refine ⟨(m, grp) :: np, lf, ?_, ?_, ?_, ?_, ?_⟩
        · rw [h1]; simp
        · rw [List.map_cons, h2]
        · simp only [List.map_cons, List.flatten_cons]
          rw [hperm, ← hfm]
          simp only [← Multiset.cons_coe, ← Multiset.coe_add, ← Multiset.singleton_add]
          rw [← h3]
          abel
        · intro gr hgr
          rcases List.mem_cons.1 hgr with hgr | hgr
          · subst hgr; exact hlen.1
          · exact h4 gr hgr
        · intro hlf gr hgr
          rcases List.mem_cons.1 hgr with hgr | hgr
          · subst hgr
            apply hlen.2
            intro hrem
            subst hrem
            apply hlf
            have hcard := congrArg Multiset.card h3
            simp only [Multiset.card_add, Multiset.coe_card, Multiset.coe_nil,
              Multiset.card_zero, List.length_nil] at hcard
            have : lf.length = 0 := by omega
            exact List.length_eq_zero.1 this
          · exact h5 hlf gr hgr
    · exact absurd h (by simp)

/-- For a positive court count, `courts * players_per_court n courts`
covers all `n` players: the ceiling division times the divisor dominates
the dividend. -/
theorem players_per_court_mul_ge (n c : Nat) (hc : 0 < c) :
    n ≤ c * players_per_court n c := by
  unfold players_per_court
  have h1 := Nat.div_add_mod (n + c - 1) c
  have h2 := Nat.mod_lt (n + c - 1) hc
  generalize hq : (n + c - 1) / c = q at h1
  generalize hr : (n + c - 1) % c = r at h1 h2
  generalize hm : c * q = m at h1 ⊢
  omega

/-- With the court floor satisfied, at most four players land per court. -/
theorem players_per_court_le_four (n c : Nat) (hc : 0 < c)
    (hreq : amount_of_bookings_required n ≤ c) : players_per_court n c ≤ 4 := by
  unfold amount_of_bookings_required at hreq
  unfold players_per_court
  rw [Nat.div_le_iff_le_mul_add_pred hc]
  omega

/-- Inverts a successful `allocate_bookings` run into the facts the
validation checks established plus the underlying loop result. -/
theorem allocate_ok_elim (bms : List BookingMember) (players : List String) (courts : Int)
    (allocs : Allocation) (h : allocate_bookings bms players courts = .ok allocs) :
    ¬ courts < (amount_of_bookings_required players.length : Int) ∧
    ¬ (authenticated_players bms players).length <
        max (amount_of_bookings_required players.length) courts.toNat ∧
    courts ≠ 0 ∧
    allocLoop (players_to_book bms players courts)
      (players_per_court players.length courts.toNat - 1)
      ((authenticated_players bms players).take
        (max (amount_of_bookings_required players.length) courts.toNat))
      players [] = .ok allocs := by
  unfold allocate_bookings at h
  split at h
  · exact absurd h (by simp)
  · split at h
    · exact absurd h (by simp)
    · split at h
      · exact absurd h (by simp)
      · split at h
        · exact absurd h (by simp)
        · rename_i hc1 hc2 hc3 hx allocs2 hloop
          rw [Except.ok.injEq] at h
          subst h
          exact ⟨hc1, hc2, hc3, hloop⟩

/-! ## Claim theorems -/

/-- C1 (amended): whenever `_allocate_bookings` returns an allocation, the
group leaders together with all co-participant lists are exactly the input
participants, each with its multiplicity — no participant is duplicated
and none is omitted. -/
theorem allocate_bookings_conserves (bms : List BookingMember) (players : List String)
    (courts : Int) (allocs : Allocation)
    (h : allocate_bookings bms players courts = .ok allocs) :
    ((allocs.map (fun gr => gr.1.username) ++ (allocs.map Prod.snd).flatten : List String) :
        Multiset String) = (players : Multiset String) := by
  obtain ⟨hc1, hc2, hc3, hloop⟩ := allocate_ok_elim bms players courts allocs h
  obtain ⟨np, lf, h1, h2, h3, h4, h5⟩ :=
    allocLoop_ok (players_to_book bms players courts)
      (players_per_court players.length courts.toNat - 1)
      ((authenticated_players bms players).take
        (max (amount_of_bookings_required players.length) courts.toNat)) players [] allocs hloop
  simp only [List.reverse_nil, List.nil_append] at h1
  subst h1
  have hcpos : 0 < courts.toNat := by omega
  have hreqle : amount_of_bookings_required players.length ≤ courts.toNat := by omega
  have hmax : max (amount_of_bookings_required players.length) courts.toNat = courts.toNat :=
    Nat.max_eq_right hreqle
  rw [hmax] at h2 hc2
  have hnpfst := congrArg List.length h2
  simp only [List.length_map, List.length_take] at hnpfst
  have hnplen : allocs.length = courts.toNat := by omega
  have hlf : lf = [] := by
    by_contra hlf
    have hfull := h5 hlf
    have hflat : (allocs.map Prod.snd).flatten.length =
        allocs.length * (players_per_court players.length courts.toNat - 1) := by
      rw [List.length_flatten]
      have hrep : List.map List.length (List.map Prod.snd allocs) =
          List.replicate allocs.length (players_per_court players.length courts.toNat - 1) := by
        have hl : (List.map List.length (List.map Prod.snd allocs)).length = allocs.length := by simp
        rw [← hl]
        apply List.eq_replicate_length.2
        intro b hb
        simp only [List.map_map, List.mem_map, Function.comp] at hb
        obtain ⟨gr, hgr, rfl⟩ := hb
        exact hfull gr hgr
      rw [hrep, List.sum_const_nat]
    have hcard := congrArg Multiset.card h3
    simp only [Multiset.card_add, Multiset.coe_card, List.length_map] at hcard
    have hlfpos : 0 < lf.length := List.length_pos.2 hlf
    have hn1 : 1 ≤ players.length := by omega
    have hq1 : 1 ≤ players_per_court players.length courts.toNat := by
      unfold players_per_court
      rw [Nat.one_le_div_iff hcpos]
      omega
    have hmul := players_per_court_mul_ge players.length courts.toNat hcpos
    rw [hflat, hnplen] at hcard
    have hsucc : courts.toNat * (players_per_court players.length courts.toNat - 1) +
        courts.toNat = courts.toNat * players_per_court players.length courts.toNat := by
      rw [← Nat.mul_succ]
      congr 1
      omega
    generalize hA : courts.toNat * (players_per_court players.length courts.toNat - 1) = A
      at hcard hsucc
    generalize hB : courts.toNat * players_per_court players.length courts.toNat = B
      at hmul hsucc
    omega
  subst hlf
  simp only [Multiset.coe_nil, add_zero] at h3
  rw [← h3, Multiset.coe_add]

/-- Witness for C1 at the six-player three-court scenario from the test
suite: the returned groups conserve all six participants. -/
theorem allocate_bookings_conserves_witness :
    (([(⟨"john@usc.nl", "p1"⟩ : BookingMember), ⟨"sarah@usc.nl", "p2"⟩,
        ⟨"mike@usc.nl", "p3"⟩].map (fun gr => gr.username) ++
        [["alice@usc.nl"], ["bob@usc.nl"], ["henk@usc.nl"]].flatten : List String) :
        Multiset String) =
      (["alice@usc.nl", "bob@usc.nl", "sarah@usc.nl", "john@usc.nl", "mike@usc.nl",
        "henk@usc.nl"] : List String) := by
  have := allocate_bookings_conserves
    [⟨"john@usc.nl", "p1"⟩, ⟨"sarah@usc.nl", "p2"⟩, ⟨"mike@usc.nl", "p3"⟩]
    ["alice@usc.nl", "bob@usc.nl", "sarah@usc.nl", "john@usc.nl", "mike@usc.nl", "henk@usc.nl"]
    3
    [(⟨"john@usc.nl", "p1"⟩, ["alice@usc.nl"]), (⟨"sarah@usc.nl", "p2"⟩, ["bob@usc.nl"]),
      (⟨"mike@usc.nl", "p3"⟩, ["henk@usc.nl"])]
    rfl
  simpa using this

/-- C1 counterexample: with three credentialed players and one guest on
three courts both validation checks pass, yet `_allocate_bookings` raises
`IndexError` instead of returning an allocation, so the claim as stated
(the function returns a conserving allocation on every validated input)
fails. -/
theorem allocate_conservation_counterexample :
    (¬ (3 : Int) < (amount_of_bookings_required
        (["l1@usc.nl", "l2@usc.nl", "l3@usc.nl", "guest@usc.nl"] : List String).length : Int)) ∧
    (¬ (authenticated_players
        [(⟨"l1@usc.nl", "p1"⟩ : BookingMember), ⟨"l2@usc.nl", "p2"⟩, ⟨"l3@usc.nl", "p3"⟩]
        ["l1@usc.nl", "l2@usc.nl", "l3@usc.nl", "guest@usc.nl"]).length <
      max (amount_of_bookings_required
        (["l1@usc.nl", "l2@usc.nl", "l3@usc.nl", "guest@usc.nl"] : List String).length)
        (3 : Int).toNat) ∧
    allocate_bookings
      [⟨"l1@usc.nl", "p1"⟩, ⟨"l2@usc.nl", "p2"⟩, ⟨"l3@usc.nl", "p3"⟩]
      ["l1@usc.nl", "l2@usc.nl", "l3@usc.nl", "guest@usc.nl"] 3 =
      .error (.pyCrash "IndexError") := by
  refine ⟨by decide, by decide, by rfl⟩

/-- C5: every group of a returned allocation holds at most three
co-participants, so at most four players counting the leader. -/
theorem allocate_group_size_bound (bms : List BookingMember) (players : List String)
    (courts : Int) (allocs : Allocation)
    (h : allocate_bookings bms players courts = .ok allocs) :
    ∀ gr ∈ allocs, gr.2.length + 1 ≤ 4 := by
  obtain ⟨hc1, hc2, hc3, hloop⟩ := allocate_ok_elim bms players courts allocs h
  obtain ⟨np, lf, h1, h2, h3, h4, h5⟩ :=
    allocLoop_ok (players_to_book bms players courts)
      (players_per_court players.length courts.toNat - 1)
      ((authenticated_players bms players).take
        (max (amount_of_bookings_required players.length) courts.toNat)) players [] allocs hloop
  simp only [List.reverse_nil, List.nil_append] at h1
  subst h1
  intro gr hgr
  have hb := h4 gr hgr
  have hcpos : 0 < courts.toNat := by omega
  have hreqle : amount_of_bookings_required players.length ≤ courts.toNat := by omega
  have h4p := players_per_court_le_four players.length courts.toNat hcpos hreqle
  omega

/-- Witness for C5 at the four-player single-court scenario from the test
suite: the single returned group stays within the occupancy bound. -/
theorem allocate_group_size_bound_witness :
    ((⟨"sarah@usc.nl", "p2"⟩ : BookingMember),
      (["alice@usc.nl", "bob@usc.nl", "henk@usc.nl"] : List String)).2.length + 1 ≤ 4 :=
  allocate_group_size_bound
    [⟨"john@usc.nl", "p1"⟩, ⟨"sarah@usc.nl", "p2"⟩, ⟨"mike@usc.nl", "p3"⟩]
    ["alice@usc.nl", "bob@usc.nl", "sarah@usc.nl", "henk@usc.nl"] 1
    [(⟨"sarah@usc.nl", "p2"⟩, ["alice@usc.nl", "bob@usc.nl", "henk@usc.nl"])] rfl
    (⟨"sarah@usc.nl", "p2"⟩, ["alice@usc.nl", "bob@usc.nl", "henk@usc.nl"])
    (List.mem_singleton.2 rfl)

/-- C2: the claim that `_allocate_bookings` completes once both validation
checks pass fails on the code — at three credentialed players plus one
guest on three courts, both checks pass (the court floor is one, three of
the participants are credentialed) and yet the grouping loop raises
`IndexError`: the scan index `j` runs past the end of the remaining pool
when only reserved leaders are left in it. -/
theorem allocate_bookings_index_error :
    allocate_bookings
      [⟨"john@usc.nl", "p1"⟩, ⟨"sarah@usc.nl", "p2"⟩, ⟨"mike@usc.nl", "p3"⟩]
      ["john@usc.nl", "sarah@usc.nl", "mike@usc.nl", "alice@usc.nl"] 3 =
      .error (.pyCrash "IndexError") := rfl

/-- C3: requesting fewer courts than the ceiling of the player count over
four fails with exactly the insufficient-courts message, before any other
outcome is possible. -/
theorem allocate_insufficient_courts (bms : List BookingMember) (players : List String)
    (courts : Int)
    (h : courts < (amount_of_bookings_required players.length : Int)) :
    allocate_bookings bms players courts =
      .error (.insufficientCourts
        (courtsErrorMsg courts (amount_of_bookings_required players.length) players.length)) := by
  unfold allocate_bookings
  rw [if_pos h]

/-- Witness for C3 at the five-player single-court scenario from the test
suite, with the rendered message. -/
theorem allocate_insufficient_courts_witness :
    allocate_bookings [⟨"john@usc.nl", "p1"⟩]
      ["alice@usc.nl", "bob@usc.nl", "sarah@usc.nl", "henk@usc.nl", "bert@usc.nl"] 1 =
      .error (.insufficientCourts
        "Requested 1 courts, but at least 2 are needed for 5 players") :=
  allocate_insufficient_courts [⟨"john@usc.nl", "p1"⟩]
    ["alice@usc.nl", "bob@usc.nl", "sarah@usc.nl", "henk@usc.nl", "bert@usc.nl"] 1 (by decide)

/-- C4: when the court floor passes but fewer credentialed members occur
among the participants than the court count to book, the function fails
with exactly the insufficient-leaders message. -/
theorem allocate_insufficient_leaders (bms : List BookingMember) (players : List String)
    (courts : Int)
    (h1 : ¬ courts < (amount_of_bookings_required players.length : Int))
    (h2 : (authenticated_players bms players).length <
      max (amount_of_bookings_required players.length) courts.toNat) :
    allocate_bookings bms players courts =
      .error (.insufficientLeaders
        (leadersErrorMsg (max (amount_of_bookings_required players.length) courts.toNat))) := by
  unfold allocate_bookings
  rw [if_neg h1, if_pos h2]

/-- Witness for C4 at the lone-uncredentialed-player scenario from the
test suite, with the rendered message. -/
theorem allocate_insufficient_leaders_witness :
    allocate_bookings
      [⟨"john@usc.nl", "p1"⟩, ⟨"sarah@usc.nl", "p2"⟩, ⟨"mike@usc.nl", "p3"⟩]
      ["alice@usc.nl"] 1 =
      .error (.insufficientLeaders
        "Not enough authenticated booking members available to book 1 squash courts") :=
  allocate_insufficient_leaders
    [⟨"john@usc.nl", "p1"⟩, ⟨"sarah@usc.nl", "p2"⟩, ⟨"mike@usc.nl", "p3"⟩]
    ["alice@usc.nl"] 1 (by decide) (by decide)

/-- C7: alias resolution is a total function — when some alias key
lowercases to the lowercased token, the canonical value stored under such
a key is returned, otherwise the token comes back unchanged. -/
theorem resolve_alias_total (tok : String) (aliases : List (String × String)) :
    (∃ kv ∈ aliases, kv.1.toLower = tok.toLower ∧ resolve_alias tok aliases = kv.2) ∨
    ((∀ kv ∈ aliases, kv.1.toLower ≠ tok.toLower) ∧ resolve_alias tok aliases = tok) := by
  cases hf : aliases.reverse.find? (fun kv => kv.1.toLower == tok.toLower) with
  | none =>
    right
    constructor
    · intro kv hkv
      have := List.find?_eq_none.1 hf kv (List.mem_reverse.2 hkv)
      simpa using this
    · simp only [resolve_alias, hf]
  | some kv =>
    left
    refine ⟨kv, List.mem_reverse.1 (List.mem_of_find?_eq_some hf), ?_, ?_⟩
    · have := List.find?_some hf
      simpa using this
    · simp only [resolve_alias, hf]

/-- Witness for C7 on a single-entry alias table hit case-insensitively. -/
theorem resolve_alias_total_witness :
    (∃ kv ∈ [("Henk", "henk@usc.nl")], kv.1.toLower = "HENK".toLower ∧
      resolve_alias "HENK" [("Henk", "henk@usc.nl")] = kv.2) ∨
    ((∀ kv ∈ [("Henk", "henk@usc.nl")], kv.1.toLower ≠ "HENK".toLower) ∧
      resolve_alias "HENK" [("Henk", "henk@usc.nl")] = "HENK") :=
  resolve_alias_total "HENK" [("Henk", "henk@usc.nl")]

/-- C9: the allocator is deterministic — two runs on identical inputs
yield the same result. -/
theorem allocate_bookings_deterministic (bms : List BookingMember) (players : List String)
    (courts : Int) (r1 r2 : Except AllocError Allocation)
    (h1 : allocate_bookings bms players courts = r1)
    (h2 : allocate_bookings bms players courts = r2) : r1 = r2 := by
  rw [← h1, ← h2]

/-- Witness for C9 at the lone-credentialed-player scenario. -/
theorem allocate_bookings_deterministic_witness :
    (Except.ok [((⟨"john@usc.nl", "p1"⟩ : BookingMember), ([] : List String))] :
      Except AllocError Allocation) = .ok [(⟨"john@usc.nl", "p1"⟩, [])] :=
  allocate_bookings_deterministic [⟨"john@usc.nl", "p1"⟩] ["john@usc.nl"] 1 _ _ rfl rfl

/-- C10: the payload builder rejects more than two invited co-participants
with the assertion message and otherwise returns the payload embedding the
slot product ids and start/end dates; the allocator itself can return a
three-co-participant group, which then fails at payload construction. -/
theorem create_booking_data_limit :
    (∀ (member_id : Int) (members : List String) (slot : BookableSlot),
      (2 < members.length →
        create_booking_data member_id members slot =
          .error "Only 2 members can be invited to a slot") ∧
      (members.length ≤ 2 →
        create_booking_data member_id members slot =
          .ok ⟨member_id, ⟨slot.linkedProductId, slot.bookableProductId, true,
            slot.startDate, slot.endDate, [], members, []⟩⟩)) ∧
    allocate_bookings
      [⟨"john@usc.nl", "p1"⟩, ⟨"sarah@usc.nl", "p2"⟩, ⟨"mike@usc.nl", "p3"⟩]
      ["alice@usc.nl", "bob@usc.nl", "sarah@usc.nl", "henk@usc.nl"] 1 =
      .ok [(⟨"sarah@usc.nl", "p2"⟩, ["alice@usc.nl", "bob@usc.nl", "henk@usc.nl"])] ∧
    create_booking_data 1 ["alice@usc.nl", "bob@usc.nl", "henk@usc.nl"]
      ⟨"s", "e", true, 10, 20⟩ = .error "Only 2 members can be invited to a slot" := by
  refine ⟨?_, rfl, rfl⟩
  intro member_id members slot
  constructor
  · intro hlen
    unfold create_booking_data
    rw [if_neg (by omega)]
  · intro hlen
    unfold create_booking_data
    rw [if_pos hlen]

/-- Witness for C10: a three-member invite list fails the assertion. -/
theorem create_booking_data_limit_witness :
    create_booking_data 7 ["a@x", "b@x", "c@x"] ⟨"s", "e", true, 1, 2⟩ =
      .error "Only 2 members can be invited to a slot" :=
  (create_booking_data_limit.1 7 ["a@x", "b@x", "c@x"] ⟨"s", "e", true, 1, 2⟩).1 (by decide)

/-- The try body of one booking ends in a dry-run message, a success
message, or a raised exception, whatever the external calls do. -/
theorem makeBookingTry_cases (date : String) (members : List String) (bm : BookingMember)
    (dryRun : Bool) (preSlot : Option BookableSlot) (usc : USCOutcomes) :
    (∃ slot, makeBookingTry date members bm dryRun preSlot usc =
        .ok (dryRunMsg slot bm members)) ∨
    makeBookingTry date members bm dryRun preSlot usc = .ok (successMsg bm members) ∨
    (∃ e, makeBookingTry date members bm dryRun preSlot usc = .error e) := by
  rcases hA : usc.authenticate with e | u
  · exact .inr (.inr ⟨e, by simp [makeBookingTry, hA]⟩)
  · rcases hM : usc.getMember with e | memberId
    · exact .inr (.inr ⟨e, by simp [makeBookingTry, hA, hM]⟩)
    · rcases hS : resolveSlot date preSlot usc with e | slot
      · exact .inr (.inr ⟨e, by simp [makeBookingTry, hA, hM, hS]⟩)
      · rcases hB : create_booking_data memberId members slot with e | bd
        · exact .inr (.inr ⟨e, by simp [makeBookingTry, hA, hM, hS, hB]⟩)
        · cases dryRun
          · rcases hK : usc.bookSlot with e | u2
            · exact .inr (.inr ⟨e, by simp [makeBookingTry, hA, hM, hS, hB, hK]⟩)
            · exact .inr (.inl (by simp [makeBookingTry, hA, hM, hS, hB, hK]))
          · exact .inl ⟨slot, by simp [makeBookingTry, hA, hM, hS, hB]⟩

/-- Each entry of the gathered booking results is the booking of the
group at the same position, run against that group's own oracle. -/
theorem runBookings_get (date : String) (dryRun : Bool) :
    ∀ (groups : List (BookingMember × List String × BookableSlot))
      (oracles : List USCOutcomes) (i : Nat)
      (gr : BookingMember × List String × BookableSlot) (u : USCOutcomes),
      groups[i]? = some gr → oracles[i]? = some u →
      (runBookings date dryRun groups oracles)[i]? =
        some (make_booking date gr.2.1 gr.1 dryRun (some gr.2.2) u) := by
  intro groups
  induction groups with
  | nil => intro oracles i gr u hg hu; simp at hg
  | cons g gs ih =>
    intro oracles i gr u hg hu
    cases oracles with
    | nil => simp at hu
    | cons o os =>
      cases i with
      | zero =>
        simp only [List.getElem?_cons_zero, Option.some.injEq] at hg hu
        subst hg; subst hu
        simp [runBookings]
      | succ i =>
        simp only [List.getElem?_cons_succ] at hg hu
        have hrec := ih os i gr u hg hu
        show (make_booking date g.2.1 g.1 dryRun (some g.2.2) o ::
          runBookings date dryRun gs os)[i + 1]? = _
        rw [List.getElem?_cons_succ]
        exact hrec

/-- C6: one group's booking always produces a textual result — the
dry-run message, the success message, or the per-group failure message —
for every outcome of the external calls, and each entry of the gathered
results is computed from that group's own data and oracle alone, so one
group's failure cannot abort or alter a sibling group's outcome. -/
theorem make_booking_isolated (date : String) (members : List String) (bm : BookingMember)
    (dryRun : Bool) (preSlot : Option BookableSlot) (usc : USCOutcomes) :
    ((∃ slot, make_booking date members bm dryRun preSlot usc = dryRunMsg slot bm members) ∨
      make_booking date members bm dryRun preSlot usc = successMsg bm members ∨
      (∃ e, make_booking date members bm dryRun preSlot usc = failureMsg dryRun bm e)) ∧
    (∀ (groups : List (BookingMember × List String × BookableSlot))
        (oracles : List USCOutcomes) (i : Nat)
        (gr : BookingMember × List String × BookableSlot) (u : USCOutcomes),
      groups[i]? = some gr → oracles[i]? = some u →
      (runBookings date dryRun groups oracles)[i]? =
        some (make_booking date gr.2.1 gr.1 dryRun (some gr.2.2) u)) := by
  constructor
  · rcases makeBookingTry_cases date members bm dryRun preSlot usc with
      ⟨slot, hs⟩ | hs | ⟨e, hs⟩
    · exact .inl ⟨slot, by unfold make_booking; rw [hs]⟩
    · exact .inr (.inl (by unfold make_booking; rw [hs]))
    · exact .inr (.inr ⟨e, by unfold make_booking; rw [hs]⟩)
  · exact runBookings_get date dryRun

/-- Witness for C6: a group whose authentication fails still yields its
failure message at its own position in the gathered results. -/
theorem make_booking_isolated_witness :
    (runBookings "2024-03-20 18:00" false
        [(⟨"john@usc.nl", "p1"⟩, ["alice@usc.nl"], ⟨"s", "e", true, 1, 2⟩)]
        [⟨.error "auth failed", .ok 1, .ok none, .ok ()⟩])[0]? =
      some (make_booking "2024-03-20 18:00" ["alice@usc.nl"] ⟨"john@usc.nl", "p1"⟩ false
        (some ⟨"s", "e", true, 1, 2⟩) ⟨.error "auth failed", .ok 1, .ok none, .ok ()⟩) :=
  (make_booking_isolated "2024-03-20 18:00" ["alice@usc.nl"] ⟨"john@usc.nl", "p1"⟩ false
      (some ⟨"s", "e", true, 1, 2⟩) ⟨.error "auth failed", .ok 1, .ok none, .ok ()⟩).2
    [(⟨"john@usc.nl", "p1"⟩, ["alice@usc.nl"], ⟨"s", "e", true, 1, 2⟩)]
    [⟨.error "auth failed", .ok 1, .ok none, .ok ()⟩] 0 _ _ rfl rfl

/-- C8: whenever the shell-split arguments of a book command contain
`--help` or `-h`, parsing returns the show-help outcome (not an error)
and the handler dispatches to showing usage, reaching no validation,
allocation or booking. -/
theorem parse_args_help_flag (text : String) (args : List String)
    (hsplit : shlexSplit (stripBookKeyword text) = some args)
    (hhelp : args.contains "--help" = true ∨ args.contains "-h" = true) :
    parse_args_book text = .ok none ∧ bookDispatch text = .showHelp := by
  have hp : parse_args_book text = .ok none := by
    simp only [parse_args_book, hsplit]
    rw [if_pos hhelp]
  exact ⟨hp, by unfold bookDispatch; rw [hp]⟩

/-- Witness for C8 at the literal `book --help` command. -/
theorem parse_args_help_flag_witness :
    parse_args_book "book --help" = .ok none ∧ bookDispatch "book --help" = .showHelp :=
  parse_args_help_flag "book --help" ["--help"] rfl (Or.inl rfl)

end UscBot
